import Mathlib

/-!
Verification development for the exhibit-package generator: a shallow
embedding of its compression fallback engine (compress_handler.py), the
exhibit numbering and assembly pipeline (app.py), the page annotator and
document assembler (pdf_handler.py), and the exhibit processor
(exhibit_processor.py), together with theorems settling the specified
properties of those components.

External effects (Ghostscript runs, PyMuPDF, the SmallPDF service, the
filesystem) are modelled as explicit environment records carrying the byte
sizes and page counts the code observes; a strategy that raises or whose
tool is missing is modelled as `none`, mirroring the `try/except` handling
in the source.
-/

/-- Helper mirroring Python `enumerate`: applies `f` to the running index
(starting at `k`) and each element. -/
def mapIdxFrom (f : Nat → α → β) : Nat → List α → List β
  | _, [] => []
  | k, a :: as => f k a :: mapIdxFrom f (k + 1) as

theorem length_mapIdxFrom (f : Nat → α → β) : ∀ (k : Nat) (l : List α),
    (mapIdxFrom f k l).length = l.length := by
  intro k l
  induction l generalizing k with
  | nil => rfl
  | cons a as ih => simp [mapIdxFrom, ih]

theorem getElem?_mapIdxFrom (f : Nat → α → β) : ∀ (k : Nat) (l : List α) (i : Nat),
    (mapIdxFrom f k l)[i]? = (l[i]?).map (f (k + i)) := by
  intro k l
  induction l generalizing k with
  | nil => intro i; rfl
  | cons a as ih =>
    intro i
    cases i with
    | zero => simp [mapIdxFrom]
    | succ j =>
      have hk : k + 1 + j = k + (j + 1) := by omega
      simp only [mapIdxFrom, List.getElem?_cons_succ, ih (k + 1) j, hk]

theorem map_mapIdxFrom (f : Nat → α → β) (g : β → γ) : ∀ (k : Nat) (l : List α),
    (mapIdxFrom f k l).map g = mapIdxFrom (fun i a => g (f i a)) k l := by
  intro k l
  induction l generalizing k with
  | nil => rfl
  | cons a as ih => simp [mapIdxFrom, ih]

theorem mapIdxFrom_eq_range' (g : Nat → β) : ∀ (l : List α) (k : Nat),
    mapIdxFrom (fun i _ => g i) k l = (List.range' k l.length).map g := by
  intro l
  induction l with
  | nil => intro k; rfl
  | cons a as ih => intro k; simp [mapIdxFrom, List.range', ih]

/-- Python `os.path.basename` (and `url.split('/')[-1]`): the part of the
string after the last slash (the whole string when there is none, empty for
a trailing slash). -/
def basename (p : String) : String :=
  ⟨p.data.foldl (fun acc c => if c = '/' then [] else acc ++ [c]) []⟩

/-- Python `pathlib.Path(p).stem`: the final path component without its last
suffix (a suffix needs a dot at a position greater than zero). -/
def stem (p : String) : String :=
  let n := basename p
  match (n.data.reverse).indexOf? '.' with
  | none => n
  | some k =>
    let i := n.data.length - 1 - k
    if 0 < i then ⟨n.data.take i⟩ else n

/-- The decimal digit character for `n < 10`, as Python renders it. -/
def digitChar (n : Nat) : Char := Char.ofNat (48 + n)

/-- Fuelled digit extraction (structural so that concrete values compute);
the fuel is always at least the number, so the zero-fuel branch is never
reached on the calls `natDigits` makes. -/
def natDigitsF : Nat → Nat → List Char
  | 0, n => [digitChar n]
  | fuel + 1, n =>
    if n < 10 then [digitChar n]
    else natDigitsF fuel (n / 10) ++ [digitChar (n % 10)]

/-- The decimal digit list of `n`, most significant first: the characters of
Python `str(n)` for a natural number. -/
def natDigits (n : Nat) : List Char := natDigitsF n n

/-- Python `str` on a natural number. -/
def pyStr (n : Nat) : String := ⟨natDigits n⟩

/-- Decoder assigning each decimal digit character its value (`0` for
anything else); used only to state correctness of the decimal labels. -/
def digitVal (c : Char) : Nat :=
  if c = '0' then 0 else if c = '1' then 1 else if c = '2' then 2
  else if c = '3' then 3 else if c = '4' then 4 else if c = '5' then 5
  else if c = '6' then 6 else if c = '7' then 7 else if c = '8' then 8
  else if c = '9' then 9 else 0

/-- Value of a decimal digit string (most significant digit first). -/
def decValue (l : List Char) : Nat := l.foldl (fun a c => 10 * a + digitVal c) 0

theorem digitVal_digitChar : ∀ d < 10, digitVal (digitChar d) = d := by decide

theorem decValue_append_digit (l : List Char) (c : Char) :
    decValue (l ++ [c]) = 10 * decValue l + digitVal c := by
  simp [decValue, List.foldl_append]

theorem decValue_natDigitsF : ∀ fuel n, n ≤ fuel → decValue (natDigitsF fuel n) = n := by
  intro fuel
  induction fuel with
  | zero =>
    intro n hn
    have h0 : n = 0 := by omega
    subst h0
    decide
  | succ fuel ih =>
    intro n hn
    rw [natDigitsF]
    by_cases h : n < 10
    · simp only [h, if_true, decValue, List.foldl]
      rw [digitVal_digitChar n h]
      omega
    · rw [if_neg h]
      have h10 : n / 10 ≤ fuel := by
        have := Nat.div_lt_self (show 0 < n by omega) (show 1 < 10 by omega)
        omega
      rw [decValue_append_digit, ih (n / 10) h10,
        digitVal_digitChar (n % 10) (Nat.mod_lt _ (by omega))]
      omega

theorem decValue_natDigits (n : Nat) : decValue (natDigits n) = n :=
  decValue_natDigitsF n n (Nat.le_refl n)

/-- On valid scalar values below the surrogate range, `Char.ofNat` (the
embedding of Python `chr`) round-trips through `Char.toNat`. -/
theorem toNat_ofNat_valid {n : Nat} (h : n < 55296) : (Char.ofNat n).toNat = n := by
  rw [Char.ofNat, dif_pos (Or.inl h)]
  rfl

/-!
## Compression engine (`compress_handler.py`, class `USCISPDFCompressor`)
-/

/-- Python `round(x, 2)`: rounding to two decimal places, modelled on the
rationals. (CPython rounds the underlying binary float half-to-even; no
theorem below depends on a tie case, where the two differ.) -/
def round2 (q : ℚ) : ℚ := ((round (q * 100) : ℤ) : ℚ) / 100

/-- The result dictionary returned by `USCISPDFCompressor.compress` and its
tier methods. `quality_preset` and `error` are optional because the source
dictionaries carry those keys only on some paths. -/
structure CompressResult where
  success : Bool
  output_path : String
  original_size : Nat
  compressed_size : Nat
  reduction_percent : ℚ
  method : String
  quality_preset : Option String
  error : Option String
deriving DecidableEq, Repr

/-- What the environment does when each compression tier runs on one input
file: `none` means the tier raises (tool missing, subprocess error, import
error, network error — all caught alike by `compress`), `some n` means the
tier runs and produces an output artifact of `n` bytes. `inputSize` is
`os.path.getsize(input_path)`. -/
structure CompressEnv where
  inputSize : Nat
  gsRun : Option Nat
  pymupdfRun : Option Nat
  smallpdfRun : Option Nat
deriving DecidableEq, Repr

/-- Embedding of `USCISPDFCompressor._compress_ghostscript`: raises when Ghostscript is
unavailable or the subprocess fails (`none`); otherwise reports success with
the measured byte sizes. A zero-byte input makes the reduction computation
raise `ZeroDivisionError`, also caught by `compress` (`none`). -/
def compressGhostscript (env : CompressEnv) (preset : String) (inp outp : String) :
    Option CompressResult :=
  match env.gsRun with
  | none => none
  | some csize =>
    if env.inputSize = 0 then none
    else some
      { success := true
        output_path := outp
        original_size := env.inputSize
        compressed_size := csize
        reduction_percent := round2 ((1 - (csize : ℚ) / (env.inputSize : ℚ)) * 100)
        method := "ghostscript"
        quality_preset := some preset
        error := none }

/-- Embedding of `USCISPDFCompressor._compress_pymupdf`: same shape as the Ghostscript
tier (raises on missing PyMuPDF or any processing error). -/
def compressPymupdf (env : CompressEnv) (preset : String) (inp outp : String) :
    Option CompressResult :=
  match env.pymupdfRun with
  | none => none
  | some csize =>
    if env.inputSize = 0 then none
    else some
      { success := true
        output_path := outp
        original_size := env.inputSize
        compressed_size := csize
        reduction_percent := round2 ((1 - (csize : ℚ) / (env.inputSize : ℚ)) * 100)
        method := "pymupdf"
        quality_preset := some preset
        error := none }

/-- Embedding of `USCISPDFCompressor._compress_smallpdf`: the remote tier; only placed on
the method list when an API key was supplied. Reports the downloaded
content length and the fixed quality label `recommended`. -/
def compressSmallpdf (env : CompressEnv) (inp outp : String) :
    Option CompressResult :=
  match env.smallpdfRun with
  | none => none
  | some csize =>
    if env.inputSize = 0 then none
    else some
      { success := true
        output_path := outp
        original_size := env.inputSize
        compressed_size := csize
        reduction_percent := round2 ((1 - (csize : ℚ) / (env.inputSize : ℚ)) * 100)
        method := "smallpdf"
        quality_preset := some "recommended"
        error := none }

/-- The all-methods-failed dictionary built at the end of
`USCISPDFCompressor.compress`: the original file is passed through. -/
def fallbackResult (env : CompressEnv) (inp : String) : CompressResult :=
  { success := false
    output_path := inp
    original_size := env.inputSize
    compressed_size := env.inputSize
    reduction_percent := 0
    method := "none"
    quality_preset := none
    error := some "All compression methods failed" }

/-- The `for method_name, method_func in methods` loop of `compress`: each
entry either raised (`none`, logged and skipped) or returned a result, which
is returned as soon as `result[ success ]` holds; exhaustion falls through
to the given fallback. -/
def firstSuccess : List (Option CompressResult) → CompressResult → CompressResult
  | [], fb => fb
  | none :: rest, fb => firstSuccess rest fb
  | some r :: rest, fb => if r.success then r else firstSuccess rest fb

/-- Embedding of `USCISPDFCompressor._get_temp_path`: the default output path, a sibling
file with a `compressed_` name marker (path juggling elided). -/
def getTempPath (inp : String) : String := "compressed_" ++ inp

/-- Embedding of `USCISPDFCompressor.compress`: tiered fallback over Ghostscript, then
PyMuPDF, then (when an API key is present) SmallPDF; if every tier fails the
original file is returned unmodified with `method = none`. -/
def compress (env : CompressEnv) (preset : String) (hasKey : Bool) (inp outp : String) :
    CompressResult :=
  firstSuccess
    ([compressGhostscript env preset inp outp, compressPymupdf env preset inp outp] ++
      (if hasKey then [compressSmallpdf env inp outp] else []))
    (fallbackResult env inp)

theorem firstSuccess_mem : ∀ (l : List (Option CompressResult)) (fb : CompressResult),
    firstSuccess l fb = fb ∨ some (firstSuccess l fb) ∈ l := by
  intro l fb
  induction l with
  | nil => left; rfl
  | cons o rest ih =>
    cases o with
    | none =>
      rcases ih with h | h
      · left; simpa [firstSuccess] using h
      · right; simp only [firstSuccess]; exact List.mem_cons_of_mem _ h
    | some r =>
      by_cases h : r.success = true
      · right; simp [firstSuccess, h]
      · rcases ih with h2 | h2
        · left; simpa [firstSuccess, h] using h2
        · right
          simp only [firstSuccess, h, if_false]
          exact List.mem_cons_of_mem _ h2

theorem compress_cases (env : CompressEnv) (preset : String) (hasKey : Bool) (inp outp : String) :
    compress env preset hasKey inp outp = fallbackResult env inp ∨
    some (compress env preset hasKey inp outp) = compressGhostscript env preset inp outp ∨
    some (compress env preset hasKey inp outp) = compressPymupdf env preset inp outp ∨
    some (compress env preset hasKey inp outp) = compressSmallpdf env inp outp := by
  rcases firstSuccess_mem
      ([compressGhostscript env preset inp outp, compressPymupdf env preset inp outp] ++
        (if hasKey then [compressSmallpdf env inp outp] else []))
      (fallbackResult env inp) with h | h
  · left; exact h
  · right
    rw [List.mem_append] at h
    rcases h with h | h
    · rcases List.mem_cons.mp h with h2 | h2
      · left; exact h2
      · right; left; simpa using h2
    · cases hasKey with
      | false => simp at h
      | true => right; right; simpa using h

theorem gs_some_spec {env : CompressEnv} {preset inp outp : String} {r : CompressResult}
    (h : compressGhostscript env preset inp outp = some r) :
    r.success = true ∧
    r.reduction_percent =
      round2 ((1 - (r.compressed_size : ℚ) / (r.original_size : ℚ)) * 100) := by
  unfold compressGhostscript at h
  split at h
  · exact absurd h (by simp)
  · split at h
    · exact absurd h (by simp)
    · cases h
      exact ⟨rfl, rfl⟩

theorem py_some_spec {env : CompressEnv} {preset inp outp : String} {r : CompressResult}
    (h : compressPymupdf env preset inp outp = some r) :
    r.success = true ∧
    r.reduction_percent =
      round2 ((1 - (r.compressed_size : ℚ) / (r.original_size : ℚ)) * 100) := by
  unfold compressPymupdf at h
  split at h
  · exact absurd h (by simp)
  · split at h
    · exact absurd h (by simp)
    · cases h
      exact ⟨rfl, rfl⟩

theorem sp_some_spec {env : CompressEnv} {inp outp : String} {r : CompressResult}
    (h : compressSmallpdf env inp outp = some r) :
    r.success = true ∧
    r.reduction_percent =
      round2 ((1 - (r.compressed_size : ℚ) / (r.original_size : ℚ)) * 100) := by
  unfold compressSmallpdf at h
  split at h
  · exact absurd h (by simp)
  · split at h
    · exact absurd h (by simp)
    · cases h
      exact ⟨rfl, rfl⟩

/-- C1 (amended): for every quality preset, credential choice and
environment (hence every input document), `compress` either returns a
result with `success = true` — with the sizes measured from the actual
files, but with no guarantee that `compressed_size ≤ original_size` — or
returns `success = false` with the output path equal to the input path and
`compressed_size` equal to `original_size` (the input is passed through
byte-identical). -/
theorem compress_success_or_passthrough (env : CompressEnv) (preset : String)
    (hasKey : Bool) (inp outp : String) :
    (compress env preset hasKey inp outp).success = true ∨
    ((compress env preset hasKey inp outp).success = false ∧
     (compress env preset hasKey inp outp).output_path = inp ∧
     (compress env preset hasKey inp outp).compressed_size =
       (compress env preset hasKey inp outp).original_size) := by
  rcases compress_cases env preset hasKey inp outp with h | h | h | h
  · right; rw [h]; exact ⟨rfl, rfl, rfl⟩
  · left; exact (gs_some_spec h.symm).1
  · left; exact (py_some_spec h.symm).1
  · left; exact (sp_some_spec h.symm).1

/-- C1 counterexample: an environment in which Ghostscript runs
successfully but writes a 20-byte file from a 10-byte input. `compress`
reports `success = true` with `compressed_size > original_size` — the code
never checks that the size did not increase, refuting the claim as
stated. -/
theorem compress_can_enlarge :
    (compress ⟨10, some 20, none, none⟩ "high" false "in.pdf" "compressed_in.pdf").success
        = true ∧
    (compress ⟨10, some 20, none, none⟩ "high" false "in.pdf" "compressed_in.pdf").original_size
        = 10 ∧
    (compress ⟨10, some 20, none, none⟩ "high" false "in.pdf" "compressed_in.pdf").compressed_size
        = 20 :=
  ⟨rfl, rfl, rfl⟩

/-- C2 (confirmed): if every strategy fails (raises or its tool is
unavailable), `compress` returns `success = false`, `method = "none"`, the
output path equal to the input path, `compressed_size = original_size`, and
`reduction_percent = 0` — the original document passes through and no
exception escapes (`compress` is a total function into results here). -/
theorem compress_all_fail_passthrough (env : CompressEnv) (preset : String)
    (hasKey : Bool) (inp outp : String)
    (h1 : env.gsRun = none) (h2 : env.pymupdfRun = none) (h3 : env.smallpdfRun = none) :
    compress env preset hasKey inp outp = fallbackResult env inp ∧
    (compress env preset hasKey inp outp).success = false ∧
    (compress env preset hasKey inp outp).method = "none" ∧
    (compress env preset hasKey inp outp).output_path = inp ∧
    (compress env preset hasKey inp outp).original_size = env.inputSize ∧
    (compress env preset hasKey inp outp).compressed_size = env.inputSize ∧
    (compress env preset hasKey inp outp).reduction_percent = 0 := by
  have he : compress env preset hasKey inp outp = fallbackResult env inp := by
    unfold compress compressGhostscript compressPymupdf compressSmallpdf
    rw [h1, h2, h3]
    cases hasKey <;> rfl
  rw [he]
  exact ⟨rfl, rfl, rfl, rfl, rfl, rfl, rfl⟩

/-- Witness for C2 at a concrete environment: a 7-byte document, no tool
available, API key supplied. -/
theorem compress_all_fail_passthrough_witness :
    compress ⟨7, none, none, none⟩ "high" true "doc.pdf" "out.pdf" =
        fallbackResult ⟨7, none, none, none⟩ "doc.pdf" ∧
    (compress ⟨7, none, none, none⟩ "high" true "doc.pdf" "out.pdf").success = false ∧
    (compress ⟨7, none, none, none⟩ "high" true "doc.pdf" "out.pdf").method = "none" ∧
    (compress ⟨7, none, none, none⟩ "high" true "doc.pdf" "out.pdf").output_path = "doc.pdf" ∧
    (compress ⟨7, none, none, none⟩ "high" true "doc.pdf" "out.pdf").original_size = 7 ∧
    (compress ⟨7, none, none, none⟩ "high" true "doc.pdf" "out.pdf").compressed_size = 7 ∧
    (compress ⟨7, none, none, none⟩ "high" true "doc.pdf" "out.pdf").reduction_percent = 0 :=
  compress_all_fail_passthrough ⟨7, none, none, none⟩ "high" true "doc.pdf" "out.pdf" rfl rfl rfl

/-- C4 (amended): whenever `compress` reports `success = true`, its
`reduction_percent` equals `(1 − compressed_size/original_size) × 100`
*rounded to two decimal places* (the source stores `round(reduction, 2)`),
with both sizes the measured byte sizes of the serialized documents. -/
theorem compress_reduction_percent_rounded (env : CompressEnv) (preset : String)
    (hasKey : Bool) (inp outp : String)
    (h : (compress env preset hasKey inp outp).success = true) :
    (compress env preset hasKey inp outp).reduction_percent =
      round2 ((1 - ((compress env preset hasKey inp outp).compressed_size : ℚ) /
        ((compress env preset hasKey inp outp).original_size : ℚ)) * 100) := by
  rcases compress_cases env preset hasKey inp outp with h1 | h1 | h1 | h1
  · rw [h1] at h; exact absurd h (by simp [fallbackResult])
  · exact (gs_some_spec h1.symm).2
  · exact (py_some_spec h1.symm).2
  · exact (sp_some_spec h1.symm).2

/-- Witness for C4: Ghostscript shrinks a 100-byte document to 50 bytes. -/
theorem compress_reduction_percent_rounded_witness :
    (compress ⟨100, some 50, none, none⟩ "high" false "a.pdf" "b.pdf").success = true ∧
    (compress ⟨100, some 50, none, none⟩ "high" false "a.pdf" "b.pdf").reduction_percent =
      round2 ((1 - (50 : ℚ) / (100 : ℚ)) * 100) :=
  ⟨rfl, compress_reduction_percent_rounded ⟨100, some 50, none, none⟩ "high" false "a.pdf" "b.pdf" rfl⟩

/-- C4 counterexample: compressing a 3-byte document to 1 byte stores
`round((1 − 1/3) × 100, 2) = 66.67`, which differs from the exact value
`(1 − 1/3) × 100 = 200/3`; so `reduction_percent` does not equal the
unrounded expression the claim states. -/
theorem compress_reduction_percent_not_exact :
    (compress ⟨3, some 1, none, none⟩ "high" false "a.pdf" "b.pdf").success = true ∧
    (compress ⟨3, some 1, none, none⟩ "high" false "a.pdf" "b.pdf").original_size = 3 ∧
    (compress ⟨3, some 1, none, none⟩ "high" false "a.pdf" "b.pdf").compressed_size = 1 ∧
    (compress ⟨3, some 1, none, none⟩ "high" false "a.pdf" "b.pdf").reduction_percent ≠
      (1 - (1 : ℚ) / 3) * 100 := by
  refine ⟨rfl, rfl, rfl, ?_⟩
  have hr : (compress ⟨3, some 1, none, none⟩ "high" false "a.pdf" "b.pdf").reduction_percent
      = round2 ((1 - ((1 : Nat) : ℚ) / ((3 : Nat) : ℚ)) * 100) := rfl
  have hfloor : round ((20000 : ℚ) / 3) = 6667 := by
    rw [round_eq, Int.floor_eq_iff]
    constructor <;> norm_num
  have hval : round2 ((1 - ((1 : Nat) : ℚ) / ((3 : Nat) : ℚ)) * 100) = 6667 / 100 := by
    rw [round2]
    have harg : (1 - ((1 : Nat) : ℚ) / ((3 : Nat) : ℚ)) * 100 * 100 = 20000 / 3 := by
      push_cast
      norm_num
    rw [harg, hfloor]
    norm_num
  rw [hr, hval]
  norm_num

/-!
## Exhibit numbering (`app.py`: `to_roman` and the numbering loop of
`generate_exhibits_from_urls`, lines 538–545)
-/

/-- Embedding of `app.py to_roman`: the value/symbol tables `val` and `syms`, paired. -/
def romanPairs : List (Nat × List Char) :=
  [(1000, ['M']), (900, ['C','M']), (500, ['D']), (400, ['C','D']),
   (100, ['C']), (90, ['X','C']), (50, ['L']), (40, ['X','L']),
   (10, ['X']), (9, ['I','X']), (5, ['V']), (4, ['I','V']), (1, ['I'])]

/-- The `while num > 0` loop of `to_roman`: at table entry `(v, s)` the
symbol `s` is appended `n / v` times (the `for _ in range(num // val[i])`
loop) and `n` drops to `n % v` before moving to the next entry. -/
def romanAux : List (Nat × List Char) → Nat → List Char
  | [], _ => []
  | (v, s) :: rest, n => (List.replicate (n / v) s).flatten ++ romanAux rest (n % v)

/-- Embedding of `app.py to_roman`: convert a number to a Roman numeral. -/
def to_roman (num : Nat) : String := ⟨romanAux romanPairs num⟩

/-- The standard value of a single Roman digit; decoder used only to state
correctness of the Roman labels. -/
def charVal (c : Char) : Nat :=
  if c = 'I' then 1 else if c = 'V' then 5 else if c = 'X' then 10
  else if c = 'L' then 50 else if c = 'C' then 100 else if c = 'D' then 500
  else if c = 'M' then 1000 else 0

/-- The standard reading of a Roman numeral: a digit strictly smaller than
its successor is subtracted, otherwise added. -/
def romanValue : List Char → Nat
  | [] => 0
  | [c] => charVal c
  | c₁ :: c₂ :: rest =>
    if charVal c₁ < charVal c₂ then romanValue (c₂ :: rest) - charVal c₁
    else charVal c₁ + romanValue (c₂ :: rest)

theorem charVal_le (c : Char) : charVal c ≤ 1000 := by
  unfold charVal
  split_ifs <;> omega

theorem romanValue_M_cons (l : List Char) :
    romanValue ('M' :: l) = 1000 + romanValue l := by
  cases l with
  | nil => decide
  | cons c rest =>
    have h := charVal_le c
    simp only [romanValue]
    rw [if_neg]
    · rfl
    · have hM : charVal 'M' = 1000 := by decide
      omega

theorem romanValue_repM (k : Nat) (l : List Char) :
    romanValue (List.replicate k 'M' ++ l) = 1000 * k + romanValue l := by
  induction k with
  | zero => simp
  | succ n ih =>
    rw [List.replicate_succ, List.cons_append, romanValue_M_cons, ih]
    ring

set_option maxRecDepth 100000 in
theorem romanValue_romanAux_lt1000 :
    ∀ m < 1000, romanValue (romanAux (romanPairs.drop 1) m) = m := by decide

/-- Correctness of `to_roman`: reading the produced
numeral back under the standard Roman reading yields the number itself. -/
theorem romanValue_to_roman (n : Nat) : romanValue (to_roman n).data = n := by
  have h1 : (to_roman n).data =
      List.replicate (n / 1000) 'M' ++ romanAux (romanPairs.drop 1) (n % 1000) := by
    show romanAux romanPairs n = _
    rw [romanPairs, romanAux]
    congr 1
    induction (n / 1000) with
    | zero => simp
    | succ k ih => simp [List.replicate_succ, ih]
  rw [h1, romanValue_repM, romanValue_romanAux_lt1000 _ (Nat.mod_lt _ (by omega)),
    Nat.div_add_mod]

/-- The numbering branch of `generate_exhibits_from_urls` (app.py 540–545):
`chr(65 + i)` for letters, `str(i + 1)` for numbers, `to_roman(i + 1)`
otherwise. -/
def exhibitNum (style : String) (i : Nat) : String :=
  if style = "letters" then String.singleton (Char.ofNat (65 + i))
  else if style = "numbers" then pyStr (i + 1)
  else to_roman (i + 1)

/-- The label sequence a run over `n` documents produces, in order: the
numbering loop derives the label of position `i` from `i` alone. -/
def exhibitLabels (style : String) (n : Nat) : List String :=
  (List.range n).map (exhibitNum style)

/-- C5 (confirmed): a run over `N` documents yields exactly `N` labels,
the label of position `i` is the scheme formula applied to `i`, and labels
are strictly increasing scheme-consistently: the letters scheme produces the
characters `chr(65 + i)` (strictly increasing codes, non-letters past the
26th document), the numbers scheme the decimal numerals of `i + 1`, and the
Roman scheme numerals that read back as `i + 1` under the standard Roman
reading (correct rendering at every position, checked concretely on the
first twenty). -/
theorem exhibit_labels_spec (N : Nat) (style : String) :
    (exhibitLabels style N).length = N ∧
    (∀ i, i < N → (exhibitLabels style N)[i]? = some (exhibitNum style i)) ∧
    (∀ i, exhibitNum "letters" i = String.singleton (Char.ofNat (65 + i))) ∧
    (∀ i j, i < j → 65 + j < 55296 →
      (Char.ofNat (65 + i)).toNat < (Char.ofNat (65 + j)).toNat) ∧
    (∀ i, exhibitNum "numbers" i = pyStr (i + 1)) ∧
    (∀ i, decValue (exhibitNum "numbers" i).data = i + 1) ∧
    (∀ i j, i < j →
      decValue (exhibitNum "numbers" i).data < decValue (exhibitNum "numbers" j).data) ∧
    (∀ i, exhibitNum "roman" i = to_roman (i + 1)) ∧
    (∀ i, romanValue (exhibitNum "roman" i).data = i + 1) ∧
    (∀ i j, i < j →
      romanValue (exhibitNum "roman" i).data < romanValue (exhibitNum "roman" j).data) ∧
    exhibitLabels "roman" 20 =
      ["I", "II", "III", "IV", "V", "VI", "VII", "VIII", "IX", "X",
       "XI", "XII", "XIII", "XIV", "XV", "XVI", "XVII", "XVIII", "XIX", "XX"] := by
  have hnum : ∀ i, exhibitNum "numbers" i = pyStr (i + 1) := fun i => rfl
  have hrom : ∀ i, exhibitNum "roman" i = to_roman (i + 1) := fun i => rfl
  have hnumv : ∀ i, decValue (exhibitNum "numbers" i).data = i + 1 := by
    intro i
    rw [hnum i]
    exact decValue_natDigits (i + 1)
  have hromv : ∀ i, romanValue (exhibitNum "roman" i).data = i + 1 := by
    intro i
    rw [hrom i]
    exact romanValue_to_roman (i + 1)
  refine ⟨by simp [exhibitLabels], ?_, fun i => rfl, ?_, hnum, hnumv, ?_, hrom, hromv, ?_, ?_⟩
  · intro i hi
    simp [exhibitLabels, List.getElem?_range hi]
  · intro i j hij hb
    rw [toNat_ofNat_valid (by omega), toNat_ofNat_valid hb]
    omega
  · intro i j hij
    rw [hnumv i, hnumv j]
    omega
  · intro i j hij
    rw [hromv i, hromv j]
    omega
  · rfl

/-- Witness for C5 at concrete positions: three letter labels, adjacent
letter codes increase, decimal values increase, and the ninth Roman label
reads back as nine. -/
theorem exhibit_labels_spec_witness :
    (exhibitLabels "letters" 3).length = 3 ∧
    (exhibitLabels "letters" 3)[2]? = some (exhibitNum "letters" 2) ∧
    (Char.ofNat (65 + 0)).toNat < (Char.ofNat (65 + 1)).toNat ∧
    decValue (exhibitNum "numbers" 0).data < decValue (exhibitNum "numbers" 1).data ∧
    romanValue (exhibitNum "roman" 8).data = 9 :=
  ⟨(exhibit_labels_spec 3 "letters").1,
   (exhibit_labels_spec 3 "letters").2.1 2 (by omega),
   (exhibit_labels_spec 3 "letters").2.2.2.1 0 1 (by omega) (by omega),
   (exhibit_labels_spec 3 "letters").2.2.2.2.2.2.1 0 1 (by omega),
   (exhibit_labels_spec 3 "letters").2.2.2.2.2.2.2.2.1 8⟩

/-!
## Pipeline compression and numbering phases
(`app.py generate_exhibits_from_urls`, lines 491–571)
-/

/-- What the pipeline observes about one downloaded file: whether
`os.path.exists` holds at compression time, the compression environment for
it, and its page count as reported by `get_pdf_page_count`. -/
structure FileEnv where
  present : Bool
  cenv : CompressEnv
  pages : Nat

/-- The `{'success': False}` placeholder used at app.py line 504 when the
handler has no compressor. -/
def noCompressorResult : CompressResult :=
  { success := false
    output_path := ""
    original_size := 0
    compressed_size := 0
    reduction_percent := 0
    method := ""
    quality_preset := none
    error := none }

/-- The compression phase (app.py 496–516): when enabled, walk the files in
order; a file that no longer exists is skipped; otherwise call `compress`
(or use the `{'success': False}` placeholder without a compressor) and
append the result to `compression_results` ONLY when it succeeded. -/
def compressionPhase (enable compAvail hasKey : Bool) (preset : String)
    (env : String → FileEnv) (files : List String) : List CompressResult :=
  if enable then
    files.foldl
      (fun acc f =>
        if (env f).present = false then acc
        else
          let r := if compAvail then compress (env f).cenv preset hasKey f (getTempPath f)
                   else noCompressorResult
          if r.success then acc ++ [r] else acc)
      []
  else []

/-- The per-exhibit compression summary stored in the manifest
(app.py 561–564). -/
structure CompressionSummary where
  reduction : ℚ
  method : String
deriving DecidableEq, Repr

/-- One entry of `st.session_state.exhibit_list` (app.py 552–566). -/
structure ExhibitInfo where
  number : String
  title : String
  filename : String
  pages : Nat
  compression : Option CompressionSummary
deriving DecidableEq, Repr

/-- Building the exhibit record of document `i` (app.py 552–566): the
compression summary is attached when `i < len(compression_results)` and the
`i`-th stored result succeeded — indexing the success-only list by the
document index. -/
def mkExhibitInfo (style : String) (results : List CompressResult)
    (env : String → FileEnv) (i : Nat) (f : String) : ExhibitInfo :=
  { number := exhibitNum style i
    title := stem f
    filename := basename f
    pages := (env f).pages
    compression :=
      match results[i]? with
      | some r =>
        if r.success then some { reduction := r.reduction_percent, method := r.method }
        else none
      | none => none }

/-- The numbering phase (app.py 538–566): one exhibit record per downloaded
file, in order. -/
def numberingPhase (style : String) (results : List CompressResult)
    (env : String → FileEnv) (files : List String) : List ExhibitInfo :=
  mapIdxFrom (fun i f => mkExhibitInfo style results env i f) 0 files

/-- The totals the compression phase accumulates over the stored
(success-only) results (app.py 508–509). -/
def totalOriginal (rs : List CompressResult) : Nat :=
  (rs.map (fun r => r.original_size)).sum

def totalCompressed (rs : List CompressResult) : Nat :=
  (rs.map (fun r => r.compressed_size)).sum

/-- The average-reduction computation of app.py line 520:
`(1 - total_compressed_size / total_original_size) * 100 if
total_original_size > 0 else 0`. -/
def avgReduction (tOrig tComp : Nat) : ℚ :=
  if 0 < tOrig then (1 - (tComp : ℚ) / (tOrig : ℚ)) * 100 else 0

/-- C9 (confirmed): the average-reduction aggregation is guarded — a
batch whose total original byte size is zero yields average 0 rather than a
division error, and otherwise the average equals
`(1 − totalCompressed/totalOriginal) × 100`. -/
theorem avg_reduction_guarded (rs : List CompressResult) :
    (totalOriginal rs = 0 →
      avgReduction (totalOriginal rs) (totalCompressed rs) = 0) ∧
    (0 < totalOriginal rs →
      avgReduction (totalOriginal rs) (totalCompressed rs) =
        (1 - (totalCompressed rs : ℚ) / (totalOriginal rs : ℚ)) * 100) := by
  constructor
  · intro h
    rw [avgReduction, if_neg]
    omega
  · intro h
    rw [avgReduction, if_pos h]

/-- Witness for C9: the empty batch totals zero and averages 0; a singleton
batch with a 100-byte original compressed to 50 bytes averages 50%. -/
theorem avg_reduction_guarded_witness :
    avgReduction (totalOriginal []) (totalCompressed []) = 0 ∧
    avgReduction
        (totalOriginal [{ success := true, output_path := "o", original_size := 100,
                          compressed_size := 50, reduction_percent := 50, method := "ghostscript",
                          quality_preset := some "high", error := none }])
        (totalCompressed [{ success := true, output_path := "o", original_size := 100,
                            compressed_size := 50, reduction_percent := 50, method := "ghostscript",
                            quality_preset := some "high", error := none }]) = 50 := by
  constructor
  · exact (avg_reduction_guarded []).1 rfl
  · rw [(avg_reduction_guarded _).2 (by norm_num [totalOriginal])]
    norm_num [totalOriginal, totalCompressed]

/-- The failing environment for C3: two downloaded documents; every
compression strategy fails on `a.pdf` (10 bytes), while Ghostscript
compresses `b.pdf` from 100 to 50 bytes. -/
def envMisaligned : String → FileEnv := fun f =>
  if f = "a.pdf" then { present := true, cenv := ⟨10, none, none, none⟩, pages := 1 }
  else { present := true, cenv := ⟨100, some 50, none, none⟩, pages := 2 }

/-- C3 (code bug): because app.py appends only *successful* results to
`compression_results` (line 507) yet indexes that list by the document
index (line 560), the manifest misattributes summaries. In the failing
environment, exhibit A (document `a.pdf`, whose own compression failed with
`method = "none"`) is given `b.pdf`'s summary (ghostscript, 50 %), exhibit
B gets no summary at all, and `strategyUsed = none` is recorded nowhere. -/
theorem exhibit_compression_misattributed :
    (numberingPhase "letters"
        (compressionPhase true true false "high" envMisaligned ["a.pdf", "b.pdf"])
        envMisaligned ["a.pdf", "b.pdf"])[0]? =
      some { number := "A", title := "a", filename := "a.pdf", pages := 1,
             compression := some
               { reduction := round2 ((1 - ((50 : Nat) : ℚ) / ((100 : Nat) : ℚ)) * 100),
                 method := "ghostscript" } } ∧
    (numberingPhase "letters"
        (compressionPhase true true false "high" envMisaligned ["a.pdf", "b.pdf"])
        envMisaligned ["a.pdf", "b.pdf"])[1]? =
      some { number := "B", title := "b", filename := "b.pdf", pages := 2,
             compression := none } ∧
    round2 ((1 - ((50 : Nat) : ℚ) / ((100 : Nat) : ℚ)) * 100) = 50 ∧
    (compress ⟨10, none, none, none⟩ "high" false "a.pdf" (getTempPath "a.pdf")).success
      = false ∧
    (compress ⟨10, none, none, none⟩ "high" false "a.pdf" (getTempPath "a.pdf")).method
      = "none" := by
  refine ⟨rfl, rfl, ?_, rfl, rfl⟩
  have harg : (1 - ((50 : Nat) : ℚ) / ((100 : Nat) : ℚ)) * 100 * 100 = ((5000 : ℤ) : ℚ) := by
    push_cast
    norm_num
  rw [round2, harg, round_intCast]
  norm_num

/-!
## Page annotator (`pdf_handler.py`, `PDFHandler.add_exhibit_number`,
lines 84–122)
-/

/-- One overlay stamp drawn by the per-page loop: the exhibit header drawn
centred near the top of a letter page and the page-of-total footer centred
near the bottom, with the fonts and sizes the source sets. Coordinates are
points on the 612 × 792 letter page: `letter[0]/2 = 306`,
`letter[1] - 0.5*inch = 756`, `0.5*inch = 36`. -/
structure OverlayStamp where
  headerText : String
  headerX : ℚ
  headerY : ℚ
  headerFont : String
  headerSize : Nat
  footerText : String
  footerX : ℚ
  footerY : ℚ
  footerFont : String
  footerSize : Nat
deriving DecidableEq, Repr

/-- A page: its original content stream (opaque), plus the overlays merged
over it (`page.merge_page` composes an overlay on top of the existing
content without altering it). -/
structure PdfPage where
  base : Nat
  overlays : List OverlayStamp
deriving DecidableEq, Repr

/-- A document as the annotator and assembler see it: its page list. -/
structure PdfDoc where
  pages : List PdfPage
deriving DecidableEq, Repr

/-- The overlay drawn for page `i` (0-based) of a `total`-page document
labelled `label` (pdf_handler.py 86–105). -/
def overlayFor (label : String) (total : Nat) (i : Nat) : OverlayStamp :=
  { headerText := "Exhibit " ++ label
    headerX := 612 / 2
    headerY := 792 - 36
    headerFont := "Helvetica-Bold"
    headerSize := 10
    footerText := "Page " ++ pyStr (i + 1) ++ " of " ++ pyStr total
    footerX := 612 / 2
    footerY := 36
    footerFont := "Helvetica"
    footerSize := 9 }

/-- Embedding of `PDFHandler.add_exhibit_number`, annotation step: every page of the
working document gets the overlay for its index merged over its existing
content, and the pages are written out in order. -/
def add_exhibit_number (doc : PdfDoc) (exhibitNumber : String) : PdfDoc :=
  ⟨mapIdxFrom
    (fun i p => { p with overlays := p.overlays ++ [overlayFor exhibitNumber doc.pages.length i] })
    0 doc.pages⟩

/-- C6 (confirmed): annotation preserves the page count exactly, and
page `i` (0-based; page `N = i + 1` 1-based) of the output is the input
page with its content untouched and one overlay appended: the exhibit
label centred near the top and `Page N of total` centred near the bottom,
`total` being this document's own page count. -/
theorem add_exhibit_number_spec (doc : PdfDoc) (label : String) :
    (add_exhibit_number doc label).pages.length = doc.pages.length ∧
    (∀ i, i < doc.pages.length →
      (add_exhibit_number doc label).pages[i]? =
        (doc.pages[i]?).map
          (fun p => { p with overlays := p.overlays ++ [overlayFor label doc.pages.length i] })) ∧
    (∀ i, i < doc.pages.length →
      ((add_exhibit_number doc label).pages[i]?).map (fun p => p.base) =
        (doc.pages[i]?).map (fun p => p.base)) ∧
    (∀ i, (overlayFor label doc.pages.length i).headerText = "Exhibit " ++ label ∧
      (overlayFor label doc.pages.length i).footerText =
        "Page " ++ pyStr (i + 1) ++ " of " ++ pyStr doc.pages.length) := by
  have hget : ∀ i, (add_exhibit_number doc label).pages[i]? =
      (doc.pages[i]?).map
        (fun (p : PdfPage) =>
          { p with overlays := p.overlays ++ [overlayFor label doc.pages.length i] }) := by
    intro i
    have hmi := getElem?_mapIdxFrom
      (fun i (p : PdfPage) =>
        { p with overlays := p.overlays ++ [overlayFor label doc.pages.length i] })
      0 doc.pages i
    simpa [add_exhibit_number] using hmi
  refine ⟨?_, fun i _ => hget i, ?_, fun i => ⟨rfl, rfl⟩⟩
  · exact length_mapIdxFrom _ 0 doc.pages
  · intro i hi
    rw [hget i]
    cases doc.pages[i]? <;> rfl

/-- Witness for C6: a concrete two-page document annotated with label `A`;
the second page keeps its content and gains the `Page 2 of 2` overlay. -/
theorem add_exhibit_number_spec_witness :
    (add_exhibit_number ⟨[⟨5, []⟩, ⟨6, []⟩]⟩ "A").pages.length = 2 ∧
    (add_exhibit_number ⟨[⟨5, []⟩, ⟨6, []⟩]⟩ "A").pages[1]? =
      some ⟨6, [overlayFor "A" 2 1]⟩ ∧
    (overlayFor "A" 2 1).footerText = "Page 2 of 2" := by
  refine ⟨(add_exhibit_number_spec ⟨[⟨5, []⟩, ⟨6, []⟩]⟩ "A").1, ?_, ?_⟩
  · rw [(add_exhibit_number_spec ⟨[⟨5, []⟩, ⟨6, []⟩]⟩ "A").2.1 1 (by norm_num)]
    rfl
  · rfl

/-!
## Document assembler (`pdf_handler.py`, `PDFHandler.merge_pdfs`,
lines 128–149)
-/

/-- The merge loop (`for pdf_path in pdf_paths: if os.path.exists(...):
merger.append(...)`). `fs` is the filesystem: `none` means the path does
not exist at merge time. The second component of the state is the list of
diagnostics emitted so far — the source emits none on the skip path. -/
def mergeLoop (fs : String → Option PdfDoc) :
    List String → PdfDoc × List String → PdfDoc × List String
  | [], st => st
  | p :: rest, st =>
    match fs p with
    | some d => mergeLoop fs rest (⟨st.1.pages ++ d.pages⟩, st.2)
    | none => mergeLoop fs rest st

/-- Embedding of `PDFHandler.merge_pdfs`: concatenate the documents whose paths exist,
in order, starting from an empty merger; returns the merged document and
the diagnostics the loop emitted. -/
def merge_pdfs (fs : String → Option PdfDoc) (paths : List String) :
    PdfDoc × List String :=
  mergeLoop fs paths (⟨[]⟩, [])

theorem mergeLoop_spec (fs : String → Option PdfDoc) :
    ∀ (paths : List String) (acc : PdfDoc) (diags : List String),
      mergeLoop fs paths (acc, diags) =
        (⟨acc.pages ++ ((paths.filterMap fs).map (fun d => d.pages)).flatten⟩, diags) := by
  intro paths
  induction paths with
  | nil => intro acc diags; simp [mergeLoop]
  | cons p rest ih =>
    intro acc diags
    cases hp : fs p with
    | none =>
      have hl : mergeLoop fs (p :: rest) (acc, diags) = mergeLoop fs rest (acc, diags) := by
        rw [mergeLoop, hp]
      rw [hl, ih, List.filterMap_cons_none hp]
    | some d =>
      have hl : mergeLoop fs (p :: rest) (acc, diags) =
          mergeLoop fs rest (⟨acc.pages ++ d.pages⟩, diags) := by
        rw [mergeLoop, hp]
      rw [hl, ih, List.filterMap_cons_some hp]
      simp

/-- C7 (amended): `merge_pdfs` concatenates exactly the documents whose
paths exist at merge time, in the given order (any TOC prepended at index 0
included), never fails on a missing path, and the output page count is the
sum of the existing inputs' page counts — but missing paths are skipped
*silently*: no diagnostic is emitted. -/
theorem merge_pdfs_spec (fs : String → Option PdfDoc) (paths : List String) :
    (merge_pdfs fs paths).1.pages =
      ((paths.filterMap fs).map (fun d => d.pages)).flatten ∧
    (merge_pdfs fs paths).1.pages.length =
      ((paths.filterMap fs).map (fun d => d.pages.length)).sum ∧
    (merge_pdfs fs paths).2 = [] := by
  have h := mergeLoop_spec fs paths ⟨[]⟩ []
  have hpages : (merge_pdfs fs paths).1.pages =
      ((paths.filterMap fs).map (fun d => d.pages)).flatten := by
    rw [merge_pdfs, h]
    simp
  have hdiags : (merge_pdfs fs paths).2 = [] := by
    rw [merge_pdfs, h]
  refine ⟨hpages, ?_, hdiags⟩
  rw [hpages, List.length_flatten, List.map_map]
  rfl

/-- C7 counterexample: with one existing and one missing path, the
missing path is skipped but the emitted diagnostic list is empty — the
claimed "diagnostic for each skipped missing path" does not exist in
`merge_pdfs` (the skip branch has no logging call). -/
theorem merge_pdfs_no_diagnostic :
    (merge_pdfs (fun p => if p = "present.pdf" then some ⟨[⟨0, []⟩]⟩ else none)
        ["present.pdf", "missing.pdf"]).2 = [] ∧
    (List.filter
        (fun p => ((fun p => if p = "present.pdf" then some (⟨[⟨0, []⟩]⟩ : PdfDoc) else none) p).isNone)
        ["present.pdf", "missing.pdf"]).length = 1 ∧
    (merge_pdfs (fun p => if p = "present.pdf" then some ⟨[⟨0, []⟩]⟩ else none)
        ["present.pdf", "missing.pdf"]).1.pages.length = 1 :=
  ⟨rfl, rfl, rfl⟩

/-!
## Exhibit reordering (`app.py main`, the ↑/↓ button handlers,
lines 1761–1786)
-/

/-- The relabelling loop both handlers run after a swap: every record's
`number` is overwritten with the scheme label of its current position. -/
def relabelRun (style : String) (l : List ExhibitInfo) : List ExhibitInfo :=
  mapIdxFrom (fun i ex => { ex with number := exhibitNum style i }) 0 l

/-- The tuple-assignment swap of entries `k` and `k + 1` (the ↓ handler
swaps `idx` with `idx + 1`; the ↑ handler swaps `idx` with `idx - 1`,
which is the same operation at `idx - 1`). Out-of-range indices leave the
list unchanged. -/
def swapAdjacent : List α → Nat → List α
  | [], _ => []
  | [a], _ => [a]
  | a :: b :: rest, 0 => b :: a :: rest
  | a :: b :: rest, k + 1 => a :: swapAdjacent (b :: rest) k

theorem length_swapAdjacent (l : List α) : ∀ k, (swapAdjacent l k).length = l.length := by
  induction l with
  | nil => intro k; rfl
  | cons a rest ih =>
    intro k
    cases rest with
    | nil => cases k <;> rfl
    | cons b rest2 =>
      cases k with
      | zero => rfl
      | succ k2 =>
        show (a :: swapAdjacent (b :: rest2) k2).length = (a :: b :: rest2).length
        simp [ih k2]

theorem map_number_relabelRun (style : String) (l : List ExhibitInfo) :
    (relabelRun style l).map (fun e => e.number) = exhibitLabels style l.length := by
  rw [relabelRun, map_mapIdxFrom]
  have hfun : (fun i (a : ExhibitInfo) =>
      ({ a with number := exhibitNum style i } : ExhibitInfo).number) =
      fun i (_ : ExhibitInfo) => exhibitNum style i := rfl
  rw [hfun, mapIdxFrom_eq_range' (exhibitNum style) l 0, exhibitLabels,
    List.range_eq_range']

/-- C8 (confirmed): swapping two adjacent exhibit records and then
re-deriving every label (as both reorder handlers do) yields exactly the
label sequence a fresh derivation over the reordered list produces — the
label depends only on the position, never on the record's identity. -/
theorem relabel_after_swap_eq_fresh (style : String) (l : List ExhibitInfo) (k : Nat)
    (h : k + 1 < l.length) :
    (relabelRun style (swapAdjacent l k)).map (fun e => e.number) =
      exhibitLabels style l.length ∧
    (swapAdjacent l k).length = l.length := by
  refine ⟨?_, length_swapAdjacent l k⟩
  rw [map_number_relabelRun, length_swapAdjacent]

/-- Witness for C8 on a concrete three-record list with the first two
records swapped. -/
theorem relabel_after_swap_eq_fresh_witness :
    (relabelRun "letters"
        (swapAdjacent
          [({ number := "A", title := "t1", filename := "f1", pages := 1,
              compression := none } : ExhibitInfo),
           { number := "B", title := "t2", filename := "f2", pages := 2, compression := none },
           { number := "C", title := "t3", filename := "f3", pages := 3, compression := none }]
          0)).map (fun e => e.number) =
      exhibitLabels "letters"
        ([({ number := "A", title := "t1", filename := "f1", pages := 1,
             compression := none } : ExhibitInfo),
          { number := "B", title := "t2", filename := "f2", pages := 2, compression := none },
          { number := "C", title := "t3", filename := "f3", pages := 3,
            compression := none }].length) ∧
    (swapAdjacent
        [({ number := "A", title := "t1", filename := "f1", pages := 1,
            compression := none } : ExhibitInfo),
         { number := "B", title := "t2", filename := "f2", pages := 2, compression := none },
         { number := "C", title := "t3", filename := "f3", pages := 3, compression := none }]
        0).length =
      [({ number := "A", title := "t1", filename := "f1", pages := 1,
          compression := none } : ExhibitInfo),
       { number := "B", title := "t2", filename := "f2", pages := 2, compression := none },
       { number := "C", title := "t3", filename := "f3", pages := 3,
         compression := none }].length :=
  relabel_after_swap_eq_fresh "letters" _ 0 (by norm_num)

/-!
## Exhibit processor (`exhibit_processor.py`, class `ExhibitProcessor`)
-/

/-- Embedding of `exhibit_processor.py ExhibitSource`. -/
structure ExhibitSource where
  url : Option String
  title : String
  description : Option String
  archived : Bool
  archive_url : Option String
  file_path : Option String
deriving DecidableEq, Repr

/-- Embedding of `exhibit_processor.py GeneratedExhibit`. -/
structure GeneratedExhibit where
  exhibit_letter : String
  original_url : Option String
  archive_url : Option String
  pdf_url : Option String
  pdf_path : Option String
  title : String
  success : Bool
  error : Option String
deriving DecidableEq, Repr

/-- Embedding of `exhibit_processor.py ExhibitPackage` (`generated_at` modelled as an
opaque timestamp supplied by the caller). -/
structure ExhibitPackage where
  case_id : String
  exhibits : List GeneratedExhibit
  table_of_contents_path : Option String
  combined_pdf_path : Option String
  total_exhibits : Nat
  successful_exhibits : Nat
  failed_exhibits : Nat
  generated_at : Nat
deriving DecidableEq, Repr

/-- Embedding of `ExhibitProcessor.add_exhibit_from_file`: the source appended for a
file, with the title defaulting to the file's basename. -/
def add_exhibit_from_file (path title : String) : ExhibitSource :=
  { url := none
    title := if title = "" then basename path else title
    description := none
    archived := false
    archive_url := none
    file_path := some path }

/-- Embedding of `ExhibitProcessor.add_exhibit_from_url`: the source appended for a URL,
with the title defaulting to `url.split('/')[-1] or 'webpage'`. -/
def add_exhibit_from_url (u title : String) : ExhibitSource :=
  { url := some u
    title :=
      if title = "" then (if basename u = "" then "webpage" else basename u) else title
    description := none
    archived := false
    archive_url := none
    file_path := none }

/-- One call to either add method, in the order the user made them. -/
inductive AddOp where
  | fromFile (path title : String)
  | fromUrl (u title : String)
deriving DecidableEq, Repr

/-- The `self.exhibits` list after a sequence of add calls: one appended
source per call, in call order. -/
def applySources (ops : List AddOp) : List ExhibitSource :=
  ops.map fun op =>
    match op with
    | .fromFile p t => add_exhibit_from_file p t
    | .fromUrl u t => add_exhibit_from_url u t

/-- The loop body of `ExhibitProcessor.process_exhibits` for index `idx`:
the `try` block only constructs a record, so it always succeeds and the
`except` branch is unreachable. -/
def processOne (idx : Nat) (s : ExhibitSource) : GeneratedExhibit :=
  { exhibit_letter := String.singleton (Char.ofNat (65 + idx))
    original_url := s.url
    archive_url := s.archive_url
    pdf_url := none
    pdf_path := s.file_path
    title := s.title
    success := true
    error := none }

/-- Embedding of `ExhibitProcessor.process_exhibits`: walk the sources in order, then
count successes and failures over the generated list. -/
def process_exhibits (case_id : String) (now : Nat) (sources : List ExhibitSource) :
    ExhibitPackage :=
  let gen := mapIdxFrom processOne 0 sources
  { case_id := case_id
    exhibits := gen
    table_of_contents_path := none
    combined_pdf_path := none
    total_exhibits := gen.length
    successful_exhibits := (gen.filter (fun e => e.success)).length
    failed_exhibits := (gen.filter (fun e => !e.success)).length
    generated_at := now }

theorem counts_mapIdxFrom_processOne : ∀ (k : Nat) (l : List ExhibitSource),
    ((mapIdxFrom processOne k l).filter (fun e => e.success)).length = l.length ∧
    ((mapIdxFrom processOne k l).filter (fun e => !e.success)).length = 0 := by
  intro k l
  induction l generalizing k with
  | nil => exact ⟨rfl, rfl⟩
  | cons a as ih =>
    have hs : (processOne k a).success = true := rfl
    constructor
    · simp only [mapIdxFrom, List.filter_cons, hs, if_true, List.length_cons]
      rw [(ih (k + 1)).1]
    · simp only [mapIdxFrom, List.filter_cons, hs, Bool.not_true]
      simpa using (ih (k + 1)).2

/-- C10 (confirmed): for every sequence of added sources,
`process_exhibits` returns a package whose exhibit list has one generated
exhibit per added source, in exactly the order the sources were added
(entry `i` is derived from source `i`), with `total_exhibits` equal to the
number of added sources and equal to `successful_exhibits +
failed_exhibits`. -/
theorem process_exhibits_spec (cid : String) (now : Nat) (ops : List AddOp) :
    (process_exhibits cid now (applySources ops)).total_exhibits = ops.length ∧
    (process_exhibits cid now (applySources ops)).total_exhibits =
      (process_exhibits cid now (applySources ops)).successful_exhibits +
        (process_exhibits cid now (applySources ops)).failed_exhibits ∧
    (process_exhibits cid now (applySources ops)).exhibits.length = ops.length ∧
    (∀ i, (process_exhibits cid now (applySources ops)).exhibits[i]? =
      ((applySources ops)[i]?).map (processOne i)) := by
  have hlen : (mapIdxFrom processOne 0 (applySources ops)).length = ops.length := by
    rw [length_mapIdxFrom, applySources, List.length_map]
  have hcounts := counts_mapIdxFrom_processOne 0 (applySources ops)
  refine ⟨?_, ?_, ?_, ?_⟩
  · exact hlen
  · have h1 : (process_exhibits cid now (applySources ops)).successful_exhibits =
        (applySources ops).length := hcounts.1
    have h2 : (process_exhibits cid now (applySources ops)).failed_exhibits = 0 := hcounts.2
    have h0 : (process_exhibits cid now (applySources ops)).total_exhibits = ops.length := hlen
    rw [h0, h1, h2, applySources, List.length_map]
    omega
  · exact hlen
  · intro i
    show (mapIdxFrom processOne 0 (applySources ops))[i]? = _
    rw [getElem?_mapIdxFrom]
    simp
